import Mathlib

/-!
Verification of the raw-http HTTP/1.1 server engine (Go) against its
natural-language specification.

The Go source is shallowly embedded: Go `[]byte` / `string` values become
`List Char` (the engine only manipulates ASCII protocol bytes), Go
`map[string]string` becomes an association list with overwrite-on-insert
semantics (only `get`/`set` are observable for header maps), fallible
operations return `Option`/`Except`, and socket reads become an explicit
list of read events.  Every definition is translated from the functions in
`src/server/*.go`; external effects the engine merely calls out to
(filesystem lookups in `routeRequest`/`serve404Bytes`, Go's
`encoding/json` in `parseJSONBodyFromBytes`) are taken as parameters of
the embedded functions, mirroring the collaborator boundary.
-/

namespace RawHttp

/-- Go byte strings (`[]byte` / `string`); the engine only handles ASCII. -/
abbrev Bytes := List Char

/-- Association list standing for a Go `map[string]K` with string keys.
Only `aGet`/`aSet` are observable; Go map iteration order is modelled
separately where the source iterates (see `findMatch`). -/
abbrev AList (α : Type) := List (Bytes × α)

/-- Go `m[k]` two-result form: `some v` when the key is present. -/
def aGet {α : Type} (m : AList α) (k : Bytes) : Option α :=
  (m.find? (fun p => p.1 == k)).map (·.2)

/-- Go `m[k] = v`: overwrite-on-insert. The new binding is put in front and
stale bindings are dropped, which gives Go's `get` semantics. -/
def aSet {α : Type} (k : Bytes) (v : α) (m : AList α) : AList α :=
  (k, v) :: m.filter (fun p => !(p.1 == k))

/-- Go `m[k]` one-result form: missing keys give the zero value `""`. -/
def aGetD (m : AList Bytes) (k : Bytes) : Bytes :=
  (aGet m k).getD []

/-- Header / parameter maps, Go `map[string]string`. -/
abbrev Smap := AList Bytes

/-- Go `strings.Split(s, sep)` for a one-character separator
(used for `"/"`, `" "`, `"&"` in the source). -/
def splitChar (sep : Char) : Bytes → List Bytes
  | [] => [[]]
  | a :: rest =>
    let r := splitChar sep rest
    if a = sep then [] :: r
    else
      match r with
      | h :: t => (a :: h) :: t
      | [] => [[a]]

/-- Go `bytes.SplitN(s, sep, 2)` for a one-character separator: the part
before the first occurrence, and `some` remainder when the separator
occurs (used for `":"`, `"="`, `"?"` in the source). -/
def splitChar2 (sep : Char) : Bytes → Bytes × Option Bytes
  | [] => ([], none)
  | a :: rest =>
    if a = sep then ([], some rest)
    else
      let p := splitChar2 sep rest
      (a :: p.1, p.2)

/-- The HTTP header-block terminator `"\r\n\r\n"`. -/
def endMarker : Bytes := ['\r', '\n', '\r', '\n']

/-- Whether `endMarker` is a prefix of `s` (first four characters). -/
def isMarkerPrefix (s : Bytes) : Bool := endMarker.isPrefixOf s

/-- Split at the first occurrence of `endMarker`; `none` when absent.
Models the search underlying `bytes.SplitN(s, "\r\n\r\n", 2)` and
`bytes.Contains(s, "\r\n\r\n")`. -/
def splitFirstMarker : Bytes → Option (Bytes × Bytes)
  | [] => none
  | a :: rest =>
    if isMarkerPrefix (a :: rest) then some ([], rest.drop 3)
    else
      match splitFirstMarker rest with
      | none => none
      | some (pre, post) => some (a :: pre, post)

/-- Go `bytes.Contains(s, "\r\n\r\n")`. -/
def containsMarker (s : Bytes) : Bool := (splitFirstMarker s).isSome

/-- Go `bytes.SplitN(s, "\r\n\r\n", 2)`: part before the first marker plus
`some` rest when the marker occurs, otherwise the whole input. -/
def splitMarker2 (s : Bytes) : Bytes × Option Bytes :=
  match splitFirstMarker s with
  | none => (s, none)
  | some (pre, post) => (pre, some post)

/-- Go `bytes.Split(s, "\r\n")` (header-line splitting). -/
def splitCRLF : Bytes → List Bytes
  | [] => [[]]
  | [a] => [[a]]
  | a :: b :: rest =>
    if a = '\r' then
      if b = '\n' then [] :: splitCRLF rest
      else
        match splitCRLF (b :: rest) with
        | h :: t => (a :: h) :: t
        | [] => [[a]]
    else
      match splitCRLF (b :: rest) with
      | h :: t => (a :: h) :: t
      | [] => [[a]]

/-- ASCII whitespace test backing `bytes.TrimSpace` (the engine only meets
ASCII header bytes). -/
def isSpaceChar (c : Char) : Bool :=
  c = ' ' || c = '\t' || c = '\r' || c = '\n'

/-- Go `bytes.TrimSpace`. -/
def trimSpace (s : Bytes) : Bytes :=
  ((s.dropWhile isSpaceChar).reverse.dropWhile isSpaceChar).reverse

/-- Go `strings.Trim(s, "/")`: strip all leading and trailing slashes. -/
def trimSlashes (s : Bytes) : Bytes :=
  ((s.dropWhile (· == '/')).reverse.dropWhile (· == '/')).reverse

/-- Go `strings.Contains(hay, needle)`. -/
def containsSub (needle : Bytes) : Bytes → Bool
  | [] => needle.isEmpty
  | a :: t => needle.isPrefixOf (a :: t) || containsSub needle t

/-- Go `strings.HasPrefix(s, ":")`. -/
def hasColonPrefix : Bytes → Bool
  | ':' :: _ => true
  | _ => false

/-! ### `matchRoute` (src/server/request.go) -/

/-- The per-segment loop of `matchRoute`: a `:`-prefixed pattern segment
captures the path segment under the parameter name, any other segment must
match literally. -/
def matchSegments : List Bytes → List Bytes → Smap → Option Smap
  | [], [], params => some params
  | rp :: rps, pp :: pps, params =>
    if hasColonPrefix pp then
      matchSegments rps pps (aSet pp.tail rp params)
    else if rp = pp then matchSegments rps pps params
    else none
  | _, _, _ => none

/-- Path segmentation used by `matchRoute`:
`strings.Split(strings.Trim(s, "/"), "/")`. -/
def segmentsOf (s : Bytes) : List Bytes :=
  splitChar '/' (trimSlashes s)

/-- `matchRoute(requestPath, routePattern)` from src/server/request.go:
`some params` on a structural match, `none` otherwise (Go `(nil, false)`). -/
def matchRoute (requestPath routePattern : Bytes) : Option Smap :=
  let requestParts := segmentsOf requestPath
  let patternParts := segmentsOf routePattern
  if requestParts.length ≠ patternParts.length then none
  else matchSegments requestParts patternParts []

/-! ### Decimal numbers (`strconv.Itoa` / `strconv.Atoi`) -/

/-- ASCII digit for `d < 10`. -/
def digitChar : Nat → Char
  | 0 => '0' | 1 => '1' | 2 => '2' | 3 => '3' | 4 => '4'
  | 5 => '5' | 6 => '6' | 7 => '7' | 8 => '8' | 9 => '9'
  | _ => '0'

/-- Fuel-driven decimal printer (fuel keeps the recursion structural; any
fuel above the argument gives the same digits, see `natToDigitsAux_fuel`). -/
def natToDigitsAux : Nat → Nat → Bytes
  | 0, _ => []
  | fuel + 1, n =>
    if n < 10 then [digitChar n]
    else natToDigitsAux fuel (n / 10) ++ [digitChar (n % 10)]

/-- Go `strconv.Itoa` on a non-negative length. -/
def natToDigits (n : Nat) : Bytes := natToDigitsAux (n + 1) n

/-- Numeric value of an ASCII digit. -/
def digitVal (c : Char) : Option Nat :=
  if '0' ≤ c ∧ c ≤ '9' then some (c.toNat - 48) else none

/-- Digit-folding loop of `strconv.Atoi`. -/
def parseNatAux : Bytes → Nat → Option Nat
  | [], acc => some acc
  | c :: rest, acc =>
    match digitVal c with
    | none => none
    | some d => parseNatAux rest (acc * 10 + d)

/-- Go `strconv.Atoi` as used on `Content-Length` values: `some n` for a
non-empty all-digit string, `none` otherwise.  (A leading `-` makes Go
return a negative number; the engine's only use compares the result with a
non-negative length and takes the same branch as on a parse error, so
mapping non-digit inputs to `none` is observationally faithful.  Go's
64-bit overflow error is not modelled.) -/
def goAtoi (s : Bytes) : Option Nat :=
  if s.isEmpty then none else parseNatAux s 0

/-! ### Message parser (src/server/request.go) -/

/-- `parseRequestLineFromBytes`: split the first line on single spaces;
at least 3 tokens required; returns `(method, rawPath)`. -/
def parseRequestLineFromBytes (firstLine : Bytes) : Option (Bytes × Bytes) :=
  match splitChar ' ' firstLine with
  | m :: p :: _ :: _ => some (m, p)
  | _ => none

/-- The loop body of `parseHeadersFromBytes`: split the line on the first
`:`; trim name and value; a line without a colon is silently skipped. -/
def parseHeaderLine (m : Smap) (line : Bytes) : Smap :=
  match splitChar2 ':' line with
  | (k, some v) => aSet (trimSpace k) (trimSpace v) m
  | (_, none) => m

/-- `parseHeadersFromBytes`. -/
def parseHeadersFromBytes (headerLines : List Bytes) : Smap :=
  headerLines.foldl parseHeaderLine []

/-- Hex digit value, backing percent-decoding. -/
def hexVal (c : Char) : Option Nat :=
  if '0' ≤ c ∧ c ≤ '9' then some (c.toNat - 48)
  else if 'a' ≤ c ∧ c ≤ 'f' then some (c.toNat - 87)
  else if 'A' ≤ c ∧ c ≤ 'F' then some (c.toNat - 55)
  else none

/-- Go `url.QueryUnescape`: `+` becomes space, `%XX` decodes, a malformed
percent escape fails the whole decode. -/
def queryUnescape : Bytes → Option Bytes
  | [] => some []
  | c :: rest =>
    if c = '+' then (queryUnescape rest).map (' ' :: ·)
    else if c = '%' then
      match rest with
      | a :: b :: rest2 =>
        match hexVal a, hexVal b with
        | some x, some y => (queryUnescape rest2).map (Char.ofNat (16 * x + y) :: ·)
        | _, _ => none
      | _ => none
    else (queryUnescape rest).map (c :: ·)

/-- `safeURLDecode`: decode, falling back to the original on error. -/
def safeURLDecode (s : Bytes) : Bytes := (queryUnescape s).getD s

/-- `parseKeyValuePairsFromBytes`: split on `&`, each pair on the first
`=`; pairs without `=` skipped; key and value percent-decoded. -/
def parseKeyValuePairsFromBytes (data : Bytes) : Smap :=
  (splitChar '&' data).foldl
    (fun m pair =>
      match splitChar2 '=' pair with
      | (k, some v) => aSet (safeURLDecode k) (safeURLDecode v) m
      | (_, none) => m)
    []

/-- `detectBrowser`: `strings.Contains` checks on the User-Agent value. -/
def detectBrowser (userAgent : Bytes) : Bytes :=
  if containsSub "Chrome".data userAgent then "Chrome".data
  else if containsSub "Firefox".data userAgent then "Firefox".data
  else if containsSub "Safari".data userAgent then "Safari".data
  else "Unknown Browser".data

/-! ### Response builder (src/server/response.go) -/

/-- `CreateResponseBytes(statusCode, contentType, statusMessage, body)`:
the exact write sequence of the source, returning the wire bytes and the
status code.  (The pooled `bytes.Buffer` is a pure concatenation.) -/
def CreateResponseBytes (statusCode contentType statusMessage body : Bytes) :
    Bytes × Bytes :=
  ("HTTP/1.1 ".data ++ statusCode ++ [' '] ++ statusMessage
    ++ "\r\nContent-Type: ".data ++ contentType
    ++ "\r\nConnection: keep-alive".data
    ++ "\r\nContent-Length: ".data ++ natToDigits body.length
    ++ endMarker ++ body,
   statusCode)

/-! ### Route table (src/server/pool.go) -/

/-- The `Request` struct fields a handler can observe. -/
structure RequestR where
  method : Bytes
  path : Bytes
  pathParams : Smap
  query : Smap
  body : Smap
  browser : Bytes
  deriving Repr

/-- `RouteHandler`: `func(req *Request) (response []byte, status string)`. -/
abbrev Handler := RequestR → Bytes × Bytes

/-- One method's route map, Go `map[string]RouteHandler`. -/
abbrev RMap := AList Handler

/-- `Router.routes`, Go `map[string]map[string]RouteHandler`. -/
abbrev Routes := AList RMap

/-- `Router.Register(method, path, handler)`:
`routes[method][path] = handler`, creating the inner map if absent. -/
def registerRoute (routes : Routes) (method path : Bytes) (h : Handler) : Routes :=
  aSet method (aSet path h ((aGet routes method).getD [])) routes

/-- The pattern-matching loop of `HandleBytes`
(`for pattern, h := range methodRoutes`): first entry of the iteration
sequence whose pattern structurally matches wins. -/
def findMatch (cleanPath : Bytes) : List (Bytes × Handler) → Option (Handler × Smap)
  | [] => none
  | (pattern, h) :: rest =>
    match matchRoute cleanPath pattern with
    | some params => some (h, params)
    | none => findMatch cleanPath rest

/-- `Router.HandleBytes`.  Go iterates `methodRoutes` with `range`, whose
order is unspecified (and deliberately randomized by the runtime); the
embedding therefore takes the iteration sequence `iter` as an explicit
argument, and theorems constrain it to be a permutation of the entries of
the method's route map.  `notFound` stands for `serve404Bytes()`, which
reads the filesystem (`pages/404.html`). -/
def HandleBytes (routes : Routes) (iter : List (Bytes × Handler))
    (method cleanPath : Bytes) (queryMap bodyMap : Smap) (browserName : Bytes)
    (notFound : Bytes × Bytes) : Bytes × Bytes :=
  match aGet routes method with
  | none => notFound
  | some methodRoutes =>
    match aGet methodRoutes cleanPath with
    | some h => h ⟨method, cleanPath, [], queryMap, bodyMap, browserName⟩
    | none =>
      match findMatch cleanPath iter with
      | some (h, params) => h ⟨method, cleanPath, params, queryMap, bodyMap, browserName⟩
      | none => notFound

/-! ### Frame reader and connection loop (src/server/request.go, pool.go) -/

/-- One socket read: a chunk of bytes delivered (possibly empty), or a
read error (timeout / peer close — Go surfaces both through `err`). -/
inductive ReadEv where
  | chunk (data : Bytes)
  | rerr
  deriving Repr, DecidableEq

/-- The connection's incoming byte stream, one event per `conn.Read`. -/
abbrev Conn := List ReadEv

/-- Errors of `readHTTPRequest`: the explicit headers-too-large error, or
a propagated read error. -/
inductive ReadErr where
  | tooLarge
  | readFailed
  deriving Repr, DecidableEq

/-- The accumulation loop of `readHTTPRequest`: before each read the
accumulated length is checked against the limit; then one read; then the
terminator check.  Returns the result and the unconsumed stream.  An
exhausted event list stands for a read that can only end in a deadline
error. -/
def readHTTPRequestAux (maxHeaderSize : Nat) (headerBuffer : Bytes) :
    Conn → (Except ReadErr Bytes) × Conn
  | [] =>
    if headerBuffer.length > maxHeaderSize then (.error .tooLarge, [])
    else (.error .readFailed, [])
  | .rerr :: rest =>
    if headerBuffer.length > maxHeaderSize then (.error .tooLarge, .rerr :: rest)
    else (.error .readFailed, rest)
  | .chunk c :: rest =>
    if headerBuffer.length > maxHeaderSize then (.error .tooLarge, .chunk c :: rest)
    else
      let buf := headerBuffer ++ c
      if containsMarker buf then (.ok buf, rest)
      else readHTTPRequestAux maxHeaderSize buf rest

/-- `readHTTPRequest(conn, config)` (the pooled buffer starts empty). -/
def readHTTPRequest (maxHeaderSize : Nat) (conn : Conn) :
    (Except ReadErr Bytes) × Conn :=
  readHTTPRequestAux maxHeaderSize [] conn

/-- The read loop of `readRemainingBody`: `need` bytes still wanted; each
read delivers at most the remaining count (the Go read targets
`remainingBuffer[totalRead:]`), surplus chunk bytes stay in the stream.
On a read error the ORIGINAL `bodyData` is returned (the partially read
remainder is dropped) and the caller keeps processing. -/
def readBodyLoop (bodyData : Bytes) (need : Nat) (acc : Bytes) :
    Conn → Bytes × Conn
  | [] =>
    if acc.length ≥ need then (bodyData ++ acc, []) else (bodyData, [])
  | .rerr :: rest =>
    if acc.length ≥ need then (bodyData ++ acc, .rerr :: rest)
    else (bodyData, rest)
  | .chunk c :: rest =>
    if acc.length ≥ need then (bodyData ++ acc, .chunk c :: rest)
    else
      let want := need - acc.length
      if c.length ≤ want then readBodyLoop bodyData need (acc ++ c) rest
      else (bodyData ++ acc ++ c.take want, .chunk (c.drop want) :: rest)

/-- `Router.readRemainingBody(conn, headerMap, bodyData)`. -/
def readRemainingBody (headerMap : Smap) (bodyData : Bytes) (conn : Conn) :
    Bytes × Conn :=
  let contentLengthStr := aGetD headerMap "Content-Length".data
  if contentLengthStr = [] then (bodyData, conn)
  else
    match goAtoi contentLengthStr with
    | none => (bodyData, conn)
    | some contentLength =>
      if bodyData.length ≥ contentLength then (bodyData, conn)
      else readBodyLoop bodyData (contentLength - bodyData.length) [] conn

/-- `routeRequest`'s interface as seen from `processRequest`: it receives
the parsed request pieces and yields response bytes and a status, or
raises a panic (`.error ()`) that unwinds to `RunConnection`'s recover.
It is a parameter because `routeRequest` consults the filesystem (static
files, traversal check) before falling back to `HandleBytes`. -/
abbrev RouteFn := Bytes → Bytes → Smap → Smap → Bytes → Except Unit (Bytes × Bytes)

/-- `parseJSONBodyFromBytes`'s interface: Go's `encoding/json` is outside
the engine; best-effort parsing means it always yields a (possibly empty)
map. -/
abbrev JsonFn := Bytes → Smap

/-- `Router.processRequest(conn, requestData)`: returns
`(responseBytes, status, shouldClose)` plus the unconsumed stream, or the
propagated handler panic.  The Go guards `len(parts) == 0` and
`len(headerLines) == 0` are unreachable (`bytes.SplitN` / `bytes.Split`
always return at least one element) and so have no counterpart. -/
def processRequest (routeFn : RouteFn) (jsonParse : JsonFn)
    (requestData : Bytes) (conn : Conn) :
    Except Unit ((Bytes × Bytes × Bool) × Conn) :=
  let parts := splitMarker2 requestData
  let headerSection := parts.1
  let bodyData0 := parts.2.getD []
  let headerLines := splitCRLF headerSection
  let firstLine := headerLines.headD []
  let remainingHeaders := headerLines.tail
  match parseRequestLineFromBytes firstLine with
  | none =>
    let r := CreateResponseBytes "400".data "text/plain".data
      "Bad Request".data "Invalid request line".data
    .ok ((r.1, r.2, true), conn)
  | some (method, pathBytes) =>
    let headerMap := parseHeadersFromBytes remainingHeaders
    let bc := readRemainingBody headerMap bodyData0 conn
    let bodyData := bc.1
    let pathParts := splitChar2 '?' pathBytes
    let cleanPath := pathParts.1
    let queryMap :=
      match pathParts.2 with
      | some q => parseKeyValuePairsFromBytes q
      | none => []
    let contentType := aGetD headerMap "Content-Type".data
    let bodyMap :=
      if bodyData.length > 0 then
        if containsSub "application/json".data contentType then jsonParse bodyData
        else parseKeyValuePairsFromBytes bodyData
      else []
    let browserName := detectBrowser (aGetD headerMap "User-Agent".data)
    match routeFn method cleanPath queryMap bodyMap browserName with
    | .error e => .error e
    | .ok rs =>
      .ok ((rs.1, rs.2, aGetD headerMap "Connection".data == "close".data), bc.2)

/-- The bytes written by `RunConnection`'s recover branch. -/
def resp500 : Bytes :=
  (CreateResponseBytes "500".data "text/plain".data
    "Internal Server Error".data "Internal server error occurred".data).1

/-- The keep-alive loop of `Router.RunConnection`, fuel-driven (structural
recursion; each successful header read consumes at least one event, so
`conn.length + 1` fuel is always enough, see `runConnAux_fuel`).  Output:
the byte strings written to the socket, in order.  A read error returns
without writing; a handler panic is caught by the deferred recover, which
writes the fixed 500 response — and then `RunConnection` returns, closing
the connection. -/
def runConnAux (routeFn : RouteFn) (jsonParse : JsonFn) (maxHeaderSize : Nat) :
    Nat → Conn → List Bytes
  | 0, _ => []
  | fuel + 1, conn =>
    match readHTTPRequest maxHeaderSize conn with
    | (.error _, _) => []
    | (.ok requestData, conn1) =>
      match processRequest routeFn jsonParse requestData conn1 with
      | .error _ => [resp500]
      | .ok (rsc, conn2) =>
        rsc.1 :: (if rsc.2.2 then [] else runConnAux routeFn jsonParse maxHeaderSize fuel conn2)

/-- `Router.RunConnection(conn)`: the session over a whole event stream. -/
def RunConnection (routeFn : RouteFn) (jsonParse : JsonFn)
    (maxHeaderSize : Nat) (conn : Conn) : List Bytes :=
  runConnAux routeFn jsonParse maxHeaderSize (conn.length + 1) conn

/-! ## Theorems -/

/-! ### C8: header size limit checked before every read -/

/-- C8.  While reading the header block, the accumulated length is checked
against `maxHeaderBytes` before every read: whenever the accumulated
buffer already exceeds the limit, the loop fails with the
headers-too-large error immediately, and the incoming stream is returned
untouched — no further read is attempted, whatever bytes the peer would
have sent. -/
theorem readHTTPRequest_tooLarge (maxHeaderSize : Nat) (headerBuffer : Bytes)
    (conn : Conn) (h : headerBuffer.length > maxHeaderSize) :
    readHTTPRequestAux maxHeaderSize headerBuffer conn = (.error .tooLarge, conn) := by
  cases conn with
  | nil => simp [readHTTPRequestAux, h]
  | cons ev rest => cases ev <;> simp [readHTTPRequestAux, h]

/-- Witness for `readHTTPRequest_tooLarge` at a concrete oversized buffer. -/
theorem readHTTPRequest_tooLarge_witness :
    ("abcd".data.length > 3) ∧
      readHTTPRequestAux 3 "abcd".data [.chunk "x".data]
        = (.error .tooLarge, [.chunk "x".data]) :=
  ⟨by decide, readHTTPRequest_tooLarge 3 "abcd".data [.chunk "x".data] (by decide)⟩

/-! ### C5: a zero-byte, error-free read

The source has no special case for a read that returns zero bytes without
an error: the loop appends nothing and simply reads again.  Connection
closure only surfaces through the read's error return. -/

/-- C5 counterexample.  A header-block read sequence whose first read
returns zero bytes with no error: `readHTTPRequest` does NOT fail — it
keeps reading and returns the request delivered by the second read,
refuting the claim that a zero-byte error-free read is treated as
connection closure. -/
theorem readHTTPRequest_zeroRead_counterexample :
    readHTTPRequest 8192 [.chunk [], .chunk "GET / HTTP/1.1\r\n\r\n".data]
      = (.ok "GET / HTTP/1.1\r\n\r\n".data, []) := by rfl

/-- C5 amended.  A read returning zero bytes with no error is ignored (the
loop continues exactly as if the read had not happened), and it is a read
that returns an ERROR — Go's `io.EOF` on peer close included — that makes
`readHTTPRequest` fail. -/
theorem readHTTPRequest_zeroRead_amended (maxHeaderSize : Nat)
    (headerBuffer : Bytes) (conn : Conn)
    (hsize : headerBuffer.length ≤ maxHeaderSize) :
    (containsMarker headerBuffer = false →
      readHTTPRequestAux maxHeaderSize headerBuffer (.chunk [] :: conn)
        = readHTTPRequestAux maxHeaderSize headerBuffer conn) ∧
    readHTTPRequestAux maxHeaderSize headerBuffer (.rerr :: conn)
      = (.error .readFailed, conn) := by
  have hnot : ¬ headerBuffer.length > maxHeaderSize := by omega
  constructor
  · intro hm
    cases conn with
    | nil => simp [readHTTPRequestAux, hnot, hm]
    | cons ev rest => cases ev <;> simp [readHTTPRequestAux, hnot, hm]
  · simp [readHTTPRequestAux, hnot]

/-- Witness for `readHTTPRequest_zeroRead_amended` at a concrete state. -/
theorem readHTTPRequest_zeroRead_amended_witness :
    ("GET".data.length ≤ 8192) ∧
      (containsMarker "GET".data = false →
        readHTTPRequestAux 8192 "GET".data [.chunk [], .rerr]
          = readHTTPRequestAux 8192 "GET".data [.rerr]) ∧
      readHTTPRequestAux 8192 "GET".data [.rerr, .chunk []]
        = (.error .readFailed, [.chunk []]) :=
  ⟨by decide,
    (readHTTPRequest_zeroRead_amended 8192 "GET".data [.rerr] (by decide)).1,
    (readHTTPRequest_zeroRead_amended 8192 "GET".data [.chunk []] (by decide)).2⟩

/-! ### C10: slash-trimming invariance of route matching -/

/-- `dropWhile` is idempotent. -/
theorem dropWhile_dropWhile {α : Type} (f : α → Bool) (l : List α) :
    (l.dropWhile f).dropWhile f = l.dropWhile f := by
  induction l with
  | nil => rfl
  | cons a t ih =>
    by_cases h : f a
    · simpa [List.dropWhile_cons, h] using ih
    · simp [List.dropWhile_cons, h]

/-- A leading slash is removed by `strings.Trim(s, "/")`. -/
theorem trimSlashes_cons (p : Bytes) : trimSlashes ('/' :: p) = trimSlashes p := by
  simp [trimSlashes, List.dropWhile_cons]

/-- A trailing slash is removed by `strings.Trim(s, "/")`. -/
theorem trimSlashes_append (p : Bytes) :
    trimSlashes (p ++ ['/']) = trimSlashes p := by
  unfold trimSlashes
  rw [List.dropWhile_append]
  by_cases h : (p.dropWhile (· == '/')).isEmpty = true
  · rw [if_pos h]
    have h' : p.dropWhile (· == '/') = [] := by
      simpa [List.isEmpty_iff] using h
    simp [h', List.dropWhile_cons]
  · rw [if_neg h]
    simp [List.reverse_append, List.dropWhile_cons]

/-- If a list survives a left `dropWhile`, so does its right-trimmed form:
the right trim only shortens the list from the right, keeping the head. -/
theorem dropWhile_rightTrim {f : Char → Bool} (l : Bytes)
    (hl : l.dropWhile f = l) :
    ((l.reverse.dropWhile f).reverse).dropWhile f
      = (l.reverse.dropWhile f).reverse := by
  have hpref : (l.reverse.dropWhile f).reverse <+: l :=
    List.reverse_suffix.mp
      (by simpa using List.dropWhile_suffix (l := l.reverse) f)
  cases hrc : (l.reverse.dropWhile f).reverse with
  | nil => rfl
  | cons a t =>
    rw [hrc] at hpref
    rcases hpref with ⟨u, hu⟩
    have hfa : f a = false := by
      by_contra hcon
      have hfa' : f a = true := by
        cases hfa2 : f a with
        | true => rfl
        | false => exact absurd hfa2 hcon
      rw [← hu] at hl
      rw [List.cons_append, List.dropWhile_cons, hfa'] at hl
      simp only [if_true] at hl
      have h1 := (List.dropWhile_suffix (l := t ++ u) f).length_le
      rw [hl] at h1
      simp at h1
    simp [List.dropWhile_cons, hfa]

/-- Trimming surrounding slashes is idempotent. -/
theorem trimSlashes_idem (s : Bytes) :
    trimSlashes (trimSlashes s) = trimSlashes s := by
  unfold trimSlashes
  rw [dropWhile_rightTrim (s.dropWhile (· == '/')) (dropWhile_dropWhile _ s)]
  rw [List.reverse_reverse, dropWhile_dropWhile]

/-- C10.  Route matching is invariant under surrounding slashes on both
the request path and the pattern: both sides are trimmed of all leading
and trailing `/` before segmentation, so adding (or removing) surrounding
slashes on either argument never changes the result — the same
success/failure and the same captured parameters. -/
theorem matchRoute_slash_invariant (p q : Bytes) :
    matchRoute ('/' :: p) q = matchRoute p q ∧
    matchRoute (p ++ ['/']) q = matchRoute p q ∧
    matchRoute p ('/' :: q) = matchRoute p q ∧
    matchRoute p (q ++ ['/']) = matchRoute p q ∧
    matchRoute (trimSlashes p) (trimSlashes q) = matchRoute p q := by
  refine ⟨?_, ?_, ?_, ?_, ?_⟩ <;>
    simp [matchRoute, segmentsOf, trimSlashes_cons, trimSlashes_append,
      trimSlashes_idem]

/-! ### C7: full characterization of `matchRoute` -/

/-- The parameter names a pattern-segment list captures. -/
def captureNames (ps : List Bytes) : List Bytes :=
  (ps.filter hasColonPrefix).map (·.tail)

/-- Filtering with a predicate implied by the search predicate does not
change `find?`. -/
theorem find?_filter_of_imp {α : Type} (q f : α → Bool) (l : List α)
    (h : ∀ a, q a = true → f a = true) :
    (l.filter f).find? q = l.find? q := by
  induction l with
  | nil => rfl
  | cons a t ih =>
    by_cases hf : f a = true
    · rw [List.filter_cons_of_pos hf]
      rw [List.find?_cons, List.find?_cons]
      cases hq : q a <;> simp [ih]
    · have hq : q a = false := by
        cases hq : q a with
        | true => exact absurd (h a hq) hf
        | false => rfl
      rw [List.filter_cons_of_neg (by simp [hf])]
      rw [ih, List.find?_cons, hq]

/-- Setting a key makes `aGet` return it. -/
theorem aGet_aSet_eq {α : Type} (k : Bytes) (v : α) (m : AList α) :
    aGet (aSet k v m) k = some v := by
  simp [aGet, aSet, List.find?_cons]

/-- Setting one key leaves lookups of other keys unchanged. -/
theorem aGet_aSet_ne {α : Type} (k name : Bytes) (v : α) (m : AList α)
    (h : name ≠ k) :
    aGet (aSet k v m) name = aGet m name := by
  unfold aGet aSet
  rw [List.find?_cons]
  have hk : (k == name) = false := by
    simp only [beq_eq_false_iff_ne]; exact fun e => h e.symm
  simp only [hk]
  rw [find?_filter_of_imp]
  intro a ha
  simp only [beq_iff_eq] at ha
  simp [ha, h]

/-- The segment loop succeeds exactly on a structural match: equal length
and literal equality at every non-capture position. -/
theorem matchSegments_isSome_iff (rs : List Bytes) :
    ∀ (ps : List Bytes) (params : Smap),
      (matchSegments rs ps params).isSome ↔
        List.Forall₂ (fun r pp => hasColonPrefix pp = true ∨ r = pp) rs ps := by
  induction rs with
  | nil =>
    intro ps params
    cases ps <;> simp [matchSegments]
  | cons r rs ih =>
    intro ps params
    cases ps with
    | nil => simp [matchSegments]
    | cons pp pps =>
      by_cases hc : hasColonPrefix pp = true
      · simp [matchSegments, hc, ih, List.forall₂_cons]
      · by_cases hr : r = pp
        · simp [matchSegments, hc, hr, ih, List.forall₂_cons]
        · simp [matchSegments, hc, hr, List.forall₂_cons]

/-- A successful segment loop leaves uncaptured names untouched. -/
theorem matchSegments_aGet_of_not_captured (rs : List Bytes) :
    ∀ (ps : List Bytes) (params m : Smap) (name : Bytes),
      matchSegments rs ps params = some m →
      name ∉ captureNames ps →
      aGet m name = aGet params name := by
  induction rs with
  | nil =>
    intro ps params m name hm _
    cases ps with
    | nil => simp [matchSegments] at hm; rw [← hm]
    | cons pp pps => simp [matchSegments] at hm
  | cons r rs ih =>
    intro ps params m name hm hn
    cases ps with
    | nil => simp [matchSegments] at hm
    | cons pp pps =>
      by_cases hc : hasColonPrefix pp = true
      · rw [matchSegments, if_pos hc] at hm
        have hn2 : name ∉ captureNames pps := by
          intro hmem
          exact hn (by simp [captureNames, List.filter_cons, hc] at *; right; exact hmem)
        have hne : name ≠ pp.tail := by
          intro e
          exact hn (by simp [captureNames, List.filter_cons, hc]; left; exact e)
        rw [ih pps _ m name hm hn2]
        exact aGet_aSet_ne _ _ _ _ hne
      · rw [matchSegments, if_neg hc] at hm
        by_cases hr : r = pp
        · rw [if_pos hr] at hm
          have hn2 : name ∉ captureNames pps := by
            simpa [captureNames, List.filter_cons, hc] using hn
          exact ih pps _ m name hm hn2
        · rw [if_neg hr] at hm; exact absurd hm (by simp)

/-- A capture whose name does not recur later ends up in the returned map
bound to the path segment at the same position. -/
theorem matchSegments_capture (rs₁ : List Bytes) :
    ∀ (qs₁ : List Bytes) (r : Bytes) (rs₂ : List Bytes) (name : Bytes)
      (qs₂ : List Bytes) (params m : Smap),
      matchSegments (rs₁ ++ r :: rs₂) (qs₁ ++ (':' :: name) :: qs₂) params = some m →
      rs₁.length = qs₁.length →
      name ∉ captureNames qs₂ →
      aGet m name = some r := by
  induction rs₁ with
  | nil =>
    intro qs₁ r rs₂ name qs₂ params m hm hlen hn
    cases qs₁ with
    | cons _ _ => simp at hlen
    | nil =>
      simp only [List.nil_append] at hm
      rw [matchSegments, if_pos (by rfl)] at hm
      rw [matchSegments_aGet_of_not_captured _ _ _ _ _ hm hn]
      exact aGet_aSet_eq _ _ _
  | cons a rs₁' ih =>
    intro qs₁ r rs₂ name qs₂ params m hm hlen hn
    cases qs₁ with
    | nil => simp at hlen
    | cons b qs₁' =>
      simp only [List.cons_append] at hm
      have hlen' : rs₁'.length = qs₁'.length := by simpa using hlen
      by_cases hc : hasColonPrefix b = true
      · rw [matchSegments, if_pos hc] at hm
        exact ih qs₁' r rs₂ name qs₂ _ m hm hlen' hn
      · rw [matchSegments, if_neg hc] at hm
        by_cases hr : a = b
        · rw [if_pos hr] at hm
          exact ih qs₁' r rs₂ name qs₂ _ m hm hlen' hn
        · rw [if_neg hr] at hm; exact absurd hm (by simp)

/-- C7.  `matchRoute` succeeds exactly when path and pattern have equally
many `/`-separated segments and every non-capture pattern segment equals
the corresponding path segment literally; a successful match binds each
`:name` capture (not recaptured later) to the path segment at its
position; differing segment counts or mismatched literals yield no match.
The spec's example `/a/:x/b/:y` vs `/a/1/b/2` gives `{x: "1", y: "2"}`. -/
theorem matchRoute_characterization :
    (∀ path pat, (matchRoute path pat).isSome ↔
        ((segmentsOf path).length = (segmentsOf pat).length ∧
          List.Forall₂ (fun r pp => hasColonPrefix pp = true ∨ r = pp)
            (segmentsOf path) (segmentsOf pat))) ∧
    (∀ path pat m qs₁ name qs₂ rs₁ r rs₂,
        matchRoute path pat = some m →
        segmentsOf pat = qs₁ ++ (':' :: name) :: qs₂ →
        segmentsOf path = rs₁ ++ r :: rs₂ →
        rs₁.length = qs₁.length →
        name ∉ captureNames qs₂ →
        aGet m name = some r) ∧
    ((matchRoute "/a/1/b/2".data "/a/:x/b/:y".data).isSome = true ∧
      aGet ((matchRoute "/a/1/b/2".data "/a/:x/b/:y".data).getD [])
        "x".data = some "1".data ∧
      aGet ((matchRoute "/a/1/b/2".data "/a/:x/b/:y".data).getD [])
        "y".data = some "2".data ∧
      matchRoute "/a/1/b".data "/a/:x/b/:y".data = none ∧
      matchRoute "/a/1/c/2".data "/a/:x/b/:y".data = none) := by
  refine ⟨?_, ?_, by decide, by decide, by decide, by decide, by decide⟩
  · intro path pat
    unfold matchRoute
    by_cases hlen : (segmentsOf path).length = (segmentsOf pat).length
    · rw [if_neg (by simp [hlen])]
      rw [matchSegments_isSome_iff]
      simp [hlen]
    · have h2 : ¬ List.Forall₂
          (fun r pp => hasColonPrefix pp = true ∨ r = pp)
          (segmentsOf path) (segmentsOf pat) := fun hf => hlen hf.length_eq
      simp [hlen, h2]
  · intro path pat m qs₁ name qs₂ rs₁ r rs₂ hm hq hr hlen hn
    unfold matchRoute at hm
    by_cases hl : (segmentsOf path).length = (segmentsOf pat).length
    · rw [if_neg (by simp [hl])] at hm
      rw [hq, hr] at hm
      exact matchSegments_capture rs₁ qs₁ r rs₂ name qs₂ [] m hm hlen hn
    · rw [if_pos (by simpa using hl)] at hm
      exact absurd hm (by simp)

/-- Witness for `matchRoute_characterization`: its general clauses applied
at the spec's example pattern and path. -/
theorem matchRoute_characterization_witness :
    (matchRoute "/a/1/b/2".data "/a/:x/b/:y".data).isSome = true ∧
    aGet ((matchRoute "/a/1/b/2".data "/a/:x/b/:y".data).getD [])
      "x".data = some "1".data := by
  constructor
  · exact (matchRoute_characterization.1 "/a/1/b/2".data "/a/:x/b/:y".data).mpr
      (by constructor; decide; decide)
  · obtain ⟨m, hm⟩ : ∃ m,
        matchRoute "/a/1/b/2".data "/a/:x/b/:y".data = some m := ⟨_, rfl⟩
    rw [hm]
    exact matchRoute_characterization.2.1 "/a/1/b/2".data "/a/:x/b/:y".data m
      [['a']] "x".data [['b'], [':', 'y']] [['a']] "1".data [['b'], ['2']]
      hm (by decide) (by decide) (by decide) (by decide)

/-! ### C1: pattern resolution order

`HandleBytes` stores exact paths and patterns in one Go map and scans it
with `range`, whose order is unspecified — so when two overlapping
patterns match, the winner is determined by the map's iteration order,
not by registration order. -/

/-- Counterexample handler: registered first. -/
def cHandlerOne : Handler := fun _ => ("one".data, "200".data)

/-- Counterexample handler: registered second. -/
def cHandlerTwo : Handler := fun _ => ("two".data, "200".data)

/-- Routes with `/u/:x` (handler one) registered BEFORE `/:a/b`
(handler two); both patterns match the path `/u/b`. -/
def cRoutes : Routes :=
  registerRoute
    (registerRoute [] "GET".data "/u/:x".data cHandlerOne)
    "GET".data "/:a/b".data cHandlerTwo

/-- One of the iteration orders Go's unordered `range` may produce over
the stored method map (here: exactly the stored entry sequence). -/
def cIter : List (Bytes × Handler) :=
  [("/:a/b".data, cHandlerTwo), ("/u/:x".data, cHandlerOne)]

/-- C1 counterexample.  `/u/:x`→"one" is registered before `/:a/b`→"two";
the path `/u/b` has no exact entry and is matched by BOTH patterns; yet
under the (legitimate, since Go map iteration order is unspecified)
iteration order `cIter` the later-registered pattern wins: the response is
"two", not the earlier-registered handler's "one".  So the first
structural match in iteration order wins — registration order does not
disambiguate overlapping patterns. -/
theorem handleBytes_registration_order_counterexample :
    aGet cRoutes "GET".data = some cIter ∧
    aGet cIter "/u/b".data = none ∧
    (matchRoute "/u/b".data "/u/:x".data).isSome = true ∧
    (matchRoute "/u/b".data "/:a/b".data).isSome = true ∧
    HandleBytes cRoutes cIter "GET".data "/u/b".data [] [] []
      ("nf".data, "404".data) = ("two".data, "200".data) ∧
    (("two".data, "200".data) : Bytes × Bytes) ≠ ("one".data, "200".data) := by
  refine ⟨rfl, rfl, by decide, by decide, rfl, by decide⟩

/-- `findMatch` returns the unique matching entry, whatever the order. -/
theorem findMatch_of_unique (path : Bytes) (l : List (Bytes × Handler))
    (e : Bytes × Handler) (he : e ∈ l)
    (hm : (matchRoute path e.1).isSome)
    (huniq : ∀ e' ∈ l, (matchRoute path e'.1).isSome → e' = e) :
    findMatch path l = some (e.2, (matchRoute path e.1).getD []) := by
  induction l with
  | nil => cases he
  | cons a t ih =>
    cases hma : matchRoute path a.1 with
    | some params =>
      have hae : a = e := huniq a (List.mem_cons_self a t) (by simp [hma])
      subst hae
      obtain ⟨p1, p2⟩ := a
      simp only [findMatch]
      rw [hma]
      simp [hma]
    | none =>
      have het : e ∈ t := by
        rcases List.mem_cons.mp he with h | h
        · subst h; rw [hma] at hm; simp at hm
        · exact h
      obtain ⟨p1, p2⟩ := a
      simp only [findMatch]
      rw [hma]
      exact ih het (fun e' he' => huniq e' (List.mem_cons_of_mem _ he'))

/-- C1 amended.  With no exact-match entry, the registered patterns are
tried in Go's (unspecified) map iteration order and the first structural
match in THAT order wins; consequently the outcome is independent of the
iteration order only when a single registered pattern matches — and then
every iteration order yields that pattern's handler, invoked with the
captured parameters. -/
theorem handleBytes_unique_match (routes : Routes)
    (iter methodRoutes : List (Bytes × Handler))
    (method cleanPath : Bytes) (queryMap bodyMap : Smap) (browserName : Bytes)
    (notFound : Bytes × Bytes) (e : Bytes × Handler)
    (hroutes : aGet routes method = some methodRoutes)
    (hperm : iter.Perm methodRoutes)
    (hexact : aGet methodRoutes cleanPath = none)
    (he : e ∈ methodRoutes)
    (hm : (matchRoute cleanPath e.1).isSome)
    (huniq : ∀ e' ∈ methodRoutes, (matchRoute cleanPath e'.1).isSome → e' = e) :
    HandleBytes routes iter method cleanPath queryMap bodyMap browserName notFound
      = e.2 ⟨method, cleanPath, (matchRoute cleanPath e.1).getD [],
          queryMap, bodyMap, browserName⟩ := by
  have hfind := findMatch_of_unique cleanPath iter e
    (hperm.mem_iff.mpr he) hm
    (fun e' he' => huniq e' (hperm.mem_iff.mp he'))
  simp only [HandleBytes, hroutes, hexact, hfind]

/-- Witness for `handleBytes_unique_match`: a single registered pattern,
resolved under the stored iteration order. -/
theorem handleBytes_unique_match_witness :
    HandleBytes (registerRoute [] "GET".data "/w/:id".data cHandlerOne)
      [("/w/:id".data, cHandlerOne)]
      "GET".data "/w/7".data [] [] [] ("nf".data, "404".data)
      = cHandlerOne ⟨"GET".data, "/w/7".data,
          (matchRoute "/w/7".data "/w/:id".data).getD [], [], [], []⟩ := by
  exact handleBytes_unique_match
    (registerRoute [] "GET".data "/w/:id".data cHandlerOne)
    [("/w/:id".data, cHandlerOne)] [("/w/:id".data, cHandlerOne)]
    "GET".data "/w/7".data [] [] [] ("nf".data, "404".data)
    ("/w/:id".data, cHandlerOne)
    rfl (List.Perm.refl _) rfl (by simp) (by decide)
    (by
      intro e' he' _
      simpa using List.mem_singleton.mp he')

/-! ### Session-loop infrastructure: stream consumption and fuel -/

/-- A successful header read consumes at least one read event. -/
theorem readHTTPRequestAux_ok_lt (maxHeaderSize : Nat) :
    ∀ (conn : Conn) (buf d : Bytes) (c' : Conn),
      readHTTPRequestAux maxHeaderSize buf conn = (.ok d, c') →
      c'.length < conn.length := by
  intro conn
  induction conn with
  | nil =>
    intro buf d c' h
    unfold readHTTPRequestAux at h
    split at h <;> simp at h
  | cons ev rest ih =>
    intro buf d c' h
    cases ev with
    | rerr =>
      unfold readHTTPRequestAux at h
      split at h <;> simp at h
    | chunk c =>
      simp only [readHTTPRequestAux] at h
      split at h
      · simp at h
      · split at h
        · simp only [Prod.mk.injEq, Except.ok.injEq] at h
          rw [← h.2]; simp
        · have := ih (buf ++ c) d c' h
          simp; omega

/-- The body-read loop never grows the unconsumed stream. -/
theorem readBodyLoop_le (b : Bytes) (need : Nat) :
    ∀ (conn : Conn) (acc : Bytes),
      ((readBodyLoop b need acc conn).2).length ≤ conn.length := by
  intro conn
  induction conn with
  | nil => intro acc; unfold readBodyLoop; split <;> simp
  | cons ev rest ih =>
    intro acc
    cases ev with
    | rerr => unfold readBodyLoop; split <;> simp
    | chunk c =>
      simp only [readBodyLoop]
      split
      · simp
      · split
        · exact le_trans (ih (acc ++ c)) (by simp)
        · simp

/-- `readRemainingBody` never grows the unconsumed stream. -/
theorem readRemainingBody_le (hm : Smap) (b : Bytes) (conn : Conn) :
    ((readRemainingBody hm b conn).2).length ≤ conn.length := by
  simp only [readRemainingBody]
  split
  · simp
  · split
    · simp
    · split
      · simp
      · exact readBodyLoop_le _ _ conn []

/-- A successfully processed request never grows the unconsumed stream. -/
theorem processRequest_ok_le (r : RouteFn) (j : JsonFn) (d : Bytes)
    (conn : Conn) (x : Bytes × Bytes × Bool) (c2 : Conn)
    (h : processRequest r j d conn = .ok (x, c2)) :
    c2.length ≤ conn.length := by
  simp only [processRequest] at h
  split at h
  · simp only [Except.ok.injEq, Prod.mk.injEq] at h
    rw [← h.2]
  · split at h
    · simp at h
    · simp only [Except.ok.injEq, Prod.mk.injEq] at h
      rw [← h.2]
      exact readRemainingBody_le _ _ conn

/-- The session loop's result does not depend on the fuel, once the fuel
exceeds the stream length. -/
theorem runConnAux_fuel (r : RouteFn) (j : JsonFn) (maxHeaderSize : Nat) :
    ∀ (fuel₁ fuel₂ : Nat) (conn : Conn),
      conn.length < fuel₁ → conn.length < fuel₂ →
      runConnAux r j maxHeaderSize fuel₁ conn
        = runConnAux r j maxHeaderSize fuel₂ conn := by
  intro fuel₁
  induction fuel₁ with
  | zero => intro fuel₂ conn h1 _; omega
  | succ f ih =>
    intro fuel₂ conn h1 h2
    cases fuel₂ with
    | zero => omega
    | succ f2 =>
      show runConnAux r j maxHeaderSize (f + 1) conn
        = runConnAux r j maxHeaderSize (f2 + 1) conn
      cases hr : readHTTPRequest maxHeaderSize conn with
      | mk res conn1 =>
        cases res with
        | error e => simp [runConnAux, hr]
        | ok data =>
          cases hp : processRequest r j data conn1 with
          | error e => simp [runConnAux, hr, hp]
          | ok v =>
            obtain ⟨rsc, conn2⟩ := v
            have hc1 : conn1.length < conn.length :=
              readHTTPRequestAux_ok_lt maxHeaderSize conn [] data conn1 hr
            have hc2 : conn2.length ≤ conn1.length :=
              processRequest_ok_le r j data conn1 rsc conn2 hp
            simp only [runConnAux, hr, hp]
            by_cases hcl : rsc.2.2 = true
            · simp [hcl]
            · simp only [Bool.not_eq_true] at hcl
              simp only [hcl, Bool.false_eq_true, if_false]
              rw [ih f2 conn2 (by omega) (by omega)]

/-! ### C2: handler panic handling -/

/-- The routing function that stands for `routeRequest` in concrete runs:
panics (an uncaught handler fault) on path `/boom`, answers normally
elsewhere. -/
def panicRoute : RouteFn := fun _ path _ _ _ =>
  if path = "/boom".data then .error () else .ok ("ok".data, "200".data)

/-- A JSON collaborator for concrete runs (never reached by them). -/
def noJson : JsonFn := fun _ => []

/-- C2 counterexample.  A session receiving a request whose handler
panics, followed by a perfectly good second request: the engine writes the
500 response and then `RunConnection` RETURNS — the deferred recover sits
outside the read loop — so the second request is never served (alone it
would elicit a response, third conjunct).  This refutes the claim that the
connection survives a handler fault and the same session continues to
serve subsequent requests. -/
theorem runConnection_panic_counterexample :
    RunConnection panicRoute noJson 8192
        [.chunk "GET /boom HTTP/1.1\r\n\r\n".data,
         .chunk "GET /ok HTTP/1.1\r\n\r\n".data]
      = [resp500] ∧
    RunConnection panicRoute noJson 8192
        [.chunk "GET /ok HTTP/1.1\r\n\r\n".data]
      = ["ok".data] ∧
    ([resp500] : List Bytes) ≠ [resp500, "ok".data] := by
  refine ⟨rfl, rfl, by decide⟩

/-- C2 amended.  An uncaught handler fault is intercepted by the deferred
recover, which writes the fixed 500 response — but the recover is at the
connection level, so the session then terminates: the 500 is the session's
final write and no further request on the socket is served. -/
theorem runConnection_panic_amended (r : RouteFn) (j : JsonFn)
    (maxHeaderSize : Nat) (conn : Conn) (data : Bytes) (conn1 : Conn)
    (h1 : readHTTPRequest maxHeaderSize conn = (.ok data, conn1))
    (h2 : processRequest r j data conn1 = .error ()) :
    RunConnection r j maxHeaderSize conn = [resp500] := by
  show runConnAux r j maxHeaderSize (conn.length + 1) conn = [resp500]
  simp [runConnAux, h1, h2]

/-- Witness for `runConnection_panic_amended` on a one-request stream. -/
theorem runConnection_panic_amended_witness :
    RunConnection panicRoute noJson 8192
      [.chunk "GET /boom HTTP/1.1\r\n\r\n".data] = [resp500] :=
  runConnection_panic_amended panicRoute noJson 8192
    [.chunk "GET /boom HTTP/1.1\r\n\r\n".data]
    "GET /boom HTTP/1.1\r\n\r\n".data [] rfl rfl

/-! ### C9: the `Connection: close` session decision -/

/-- A routing function answering every request with `("ok", "200")`. -/
def okRoute : RouteFn := fun _ _ _ _ _ => .ok ("ok".data, "200".data)

/-- C9.  After one successfully processed request, the session consults
the parsed `Connection` header: when it equals `close` the session ends
with that single response as its only write; otherwise the loop returns
to reading and the remaining writes are exactly a fresh session over the
unconsumed stream — so a further request on the same connection gets
processed. -/
theorem runConnection_connection_close (r : RouteFn) (j : JsonFn)
    (maxHeaderSize : Nat) (conn : Conn) (data : Bytes) (conn1 : Conn)
    (resp st : Bytes) (sc : Bool) (conn2 : Conn)
    (h1 : readHTTPRequest maxHeaderSize conn = (.ok data, conn1))
    (h2 : processRequest r j data conn1 = .ok ((resp, st, sc), conn2))
    (h3 : parseRequestLineFromBytes ((splitCRLF (splitMarker2 data).1).headD [])
      ≠ none) :
    (aGetD (parseHeadersFromBytes (splitCRLF (splitMarker2 data).1).tail)
        "Connection".data = "close".data →
      RunConnection r j maxHeaderSize conn = [resp]) ∧
    (aGetD (parseHeadersFromBytes (splitCRLF (splitMarker2 data).1).tail)
        "Connection".data ≠ "close".data →
      RunConnection r j maxHeaderSize conn
        = resp :: RunConnection r j maxHeaderSize conn2) := by
  have hsc : sc
      = (aGetD (parseHeadersFromBytes (splitCRLF (splitMarker2 data).1).tail)
          "Connection".data == "close".data) := by
    simp only [processRequest] at h2
    split at h2
    · next heq => exact absurd heq h3
    · split at h2
      · exact absurd h2 (by simp)
      · simp only [Except.ok.injEq, Prod.mk.injEq] at h2
        obtain ⟨⟨e1, e2, e3⟩, e4⟩ := h2
        exact e3.symm
  constructor
  · intro hclose
    have hsct : sc = true := by rw [hsc, hclose]; simp
    show runConnAux r j maxHeaderSize (conn.length + 1) conn = [resp]
    simp [runConnAux, h1, h2, hsct]
  · intro hne
    have hscf : sc = false := by
      rw [hsc]; exact beq_eq_false_iff_ne.mpr hne
    have hc1 : conn1.length < conn.length :=
      readHTTPRequestAux_ok_lt maxHeaderSize conn [] data conn1 h1
    have hc2 : conn2.length ≤ conn1.length :=
      processRequest_ok_le r j data conn1 _ conn2 h2
    show runConnAux r j maxHeaderSize (conn.length + 1) conn
      = resp :: RunConnection r j maxHeaderSize conn2
    simp only [runConnAux, h1, h2, hscf, Bool.false_eq_true, if_false]
    rw [runConnAux_fuel r j maxHeaderSize conn.length (conn2.length + 1) conn2
      (by omega) (by omega)]
    rfl

/-- Witness for `runConnection_connection_close`: a `Connection: close`
request ends the session after one response; two plain requests get two
responses on the same connection. -/
theorem runConnection_connection_close_witness :
    RunConnection okRoute noJson 8192
        [.chunk "GET / HTTP/1.1\r\nConnection: close\r\n\r\n".data,
         .chunk "GET / HTTP/1.1\r\n\r\n".data]
      = ["ok".data] ∧
    RunConnection okRoute noJson 8192
        [.chunk "GET / HTTP/1.1\r\n\r\n".data,
         .chunk "GET / HTTP/1.1\r\n\r\n".data]
      = ["ok".data, "ok".data] := by
  constructor
  · exact (runConnection_connection_close okRoute noJson 8192
      [.chunk "GET / HTTP/1.1\r\nConnection: close\r\n\r\n".data,
       .chunk "GET / HTTP/1.1\r\n\r\n".data]
      "GET / HTTP/1.1\r\nConnection: close\r\n\r\n".data
      [.chunk "GET / HTTP/1.1\r\n\r\n".data]
      "ok".data "200".data true [.chunk "GET / HTTP/1.1\r\n\r\n".data]
      rfl rfl (by decide)).1 rfl
  · exact ((runConnection_connection_close okRoute noJson 8192
      [.chunk "GET / HTTP/1.1\r\n\r\n".data,
       .chunk "GET / HTTP/1.1\r\n\r\n".data]
      "GET / HTTP/1.1\r\n\r\n".data
      [.chunk "GET / HTTP/1.1\r\n\r\n".data]
      "ok".data "200".data false [.chunk "GET / HTTP/1.1\r\n\r\n".data]
      rfl rfl (by decide)).2 (by decide)).trans rfl

/-! ### C3: body completion is fail-open, not fail-closed -/

/-- A routing function whose response reveals how many body fields the
engine handed it. -/
def echoCountRoute : RouteFn := fun _ _ _ bodyMap _ =>
  .ok (if bodyMap.length = 1 then "partial".data else "full".data, "200".data)

/-- C3 counterexample.  A request declares `Content-Length: 7` but only
`a=1` arrived with the headers, and the connection then fails: the read
loop gives up, `readRemainingBody` returns the PARTIAL body it already
had, and `processRequest` carries on — it parses the partial body (one
field instead of two), invokes the handler with it and produces a normal
response with `shouldClose = false`.  The connection is not aborted; the
request IS processed with a partial body, refuting the fail-closed claim. -/
theorem readRemainingBody_failOpen_counterexample :
    readRemainingBody [("Content-Length".data, "7".data)] "a=1".data [.rerr]
      = ("a=1".data, []) ∧
    processRequest echoCountRoute noJson
        "POST /x HTTP/1.1\r\nContent-Length: 7\r\n\r\na=1".data [.rerr]
      = .ok (("partial".data, "200".data, false), []) :=
  ⟨rfl, rfl⟩

/-- Every chunk the body loop consumes keeps the accumulator at most
`need` long, and the final body is either the untouched original (a read
failed first) or exactly `need` bytes longer. -/
theorem readBodyLoop_spec (b : Bytes) (need : Nat) :
    ∀ (conn : Conn) (acc : Bytes), acc.length ≤ need →
      (readBodyLoop b need acc conn).1 = b ∨
        ((readBodyLoop b need acc conn).1).length = b.length + need := by
  intro conn
  induction conn with
  | nil =>
    intro acc hle
    simp only [readBodyLoop]
    split
    · right; simp; omega
    · left; rfl
  | cons ev rest ih =>
    intro acc hle
    cases ev with
    | rerr =>
      simp only [readBodyLoop]
      split
      · right; simp; omega
      · left; rfl
    | chunk c =>
      simp only [readBodyLoop]
      split
      · right; simp; omega
      · split
        · next hc =>
          exact ih (acc ++ c) (by simp at hc ⊢; omega)
        · next hc =>
          right
          simp only [List.length_append, List.length_take]
          simp at hc ⊢
          omega

/-- C3 amended.  When `Content-Length` declares more than arrived with the
header block, the engine reads until exactly the declared length is
assembled — but on a read failure (timeout, peer loss) it falls back to
the partial body already read and the request is still processed: the
result is either the untouched partial body or a body of exactly the
declared length, never an aborted connection. -/
theorem readRemainingBody_amended (hm : Smap) (bodyData : Bytes)
    (conn : Conn) (cl : Nat)
    (hcl : goAtoi (aGetD hm "Content-Length".data) = some cl)
    (hlt : bodyData.length < cl) :
    (readRemainingBody hm bodyData conn).1 = bodyData ∨
      ((readRemainingBody hm bodyData conn).1).length = cl := by
  have hne : aGetD hm "Content-Length".data ≠ [] := by
    intro he
    rw [he] at hcl
    simp [goAtoi] at hcl
  simp only [readRemainingBody]
  rw [if_neg hne, hcl]
  dsimp only
  rw [if_neg (by omega)]
  have := readBodyLoop_spec bodyData (cl - bodyData.length) conn [] (by simp)
  rcases this with h | h
  · exact Or.inl h
  · right; rw [h]; omega

/-- Witness for `readRemainingBody_amended` at the counterexample's
request state. -/
theorem readRemainingBody_amended_witness :
    (readRemainingBody [("Content-Length".data, "7".data)] "a=1".data
        [.rerr]).1 = "a=1".data ∨
      ((readRemainingBody [("Content-Length".data, "7".data)] "a=1".data
        [.rerr]).1).length = 7 :=
  readRemainingBody_amended [("Content-Length".data, "7".data)] "a=1".data
    [.rerr] 7 (by rfl) (by decide)

/-! ### C4: header lookups are case-sensitive -/

/-- C4 counterexample.  Two requests that differ only in the letter case
of the `Connection` header name are NOT processed identically: the engine
looks the header up under the exact key `"Connection"`, so the lowercase
variant's `close` is invisible — `shouldClose` is `true` for one request
and `false` for the other.  Storage is indeed case-as-received (last two
conjuncts). -/
theorem headerLookup_caseSensitive_counterexample :
    processRequest okRoute noJson
        "GET / HTTP/1.1\r\nConnection: close\r\n\r\n".data []
      = .ok (("ok".data, "200".data, true), []) ∧
    processRequest okRoute noJson
        "GET / HTTP/1.1\r\nconnection: close\r\n\r\n".data []
      = .ok (("ok".data, "200".data, false), []) ∧
    aGet (parseHeadersFromBytes ["connection: close".data])
      "connection".data = some "close".data ∧
    aGet (parseHeadersFromBytes ["connection: close".data])
      "Connection".data = none :=
  ⟨rfl, rfl, rfl, rfl⟩

/-- C4 amended.  The engine's header lookups (`Content-Type`,
`Connection`, `Content-Length`) are case-sensitive exact-key lookups on a
map that stores names with the case as received; in particular a request
whose parsed header map has no exact-case `Connection` key never closes
the session, whatever other-case variants it carries. -/
theorem headerLookup_exactCase_amended (r : RouteFn) (j : JsonFn)
    (data : Bytes) (conn : Conn) (x st : Bytes) (sc : Bool) (c2 : Conn)
    (h2 : processRequest r j data conn = .ok ((x, st, sc), c2))
    (h3 : parseRequestLineFromBytes ((splitCRLF (splitMarker2 data).1).headD [])
      ≠ none)
    (hnone : aGet (parseHeadersFromBytes (splitCRLF (splitMarker2 data).1).tail)
      "Connection".data = none) :
    sc = false := by
  simp only [processRequest] at h2
  split at h2
  · next heq => exact absurd heq h3
  · split at h2
    · exact absurd h2 (by simp)
    · simp only [Except.ok.injEq, Prod.mk.injEq] at h2
      obtain ⟨⟨e1, e2, e3⟩, e4⟩ := h2
      rw [← e3]
      simp [aGetD, hnone]

/-- Witness for `headerLookup_exactCase_amended` at the lowercase
request of the counterexample. -/
theorem headerLookup_exactCase_amended_witness : (false : Bool) = false :=
  headerLookup_exactCase_amended okRoute noJson
    "GET / HTTP/1.1\r\nconnection: close\r\n\r\n".data []
    "ok".data "200".data false [] rfl (by decide) rfl

/-! ### C6: decimal round-trip (`Itoa` / `Atoi`) -/

/-- Any sufficient fuel gives the same digits. -/
theorem natToDigitsAux_fuel :
    ∀ (fuel₁ fuel₂ n : Nat), n < fuel₁ → n < fuel₂ →
      natToDigitsAux fuel₁ n = natToDigitsAux fuel₂ n := by
  intro fuel₁
  induction fuel₁ with
  | zero => intro fuel₂ n h1 _; omega
  | succ f ih =>
    intro fuel₂ n h1 h2
    cases fuel₂ with
    | zero => omega
    | succ f2 =>
      show natToDigitsAux (f + 1) n = natToDigitsAux (f2 + 1) n
      unfold natToDigitsAux
      by_cases hn : n < 10
      · simp [hn]
      · have hd : n / 10 < n := Nat.div_lt_self (by omega) (by omega)
        simp only [hn, if_false]
        rw [ih f2 (n / 10) (by omega) (by omega)]

/-- The one-step unfolding of the decimal printer. -/
theorem natToDigits_eq (n : Nat) :
    natToDigits n
      = if n < 10 then [digitChar n]
        else natToDigits (n / 10) ++ [digitChar (n % 10)] := by
  show natToDigitsAux (n + 1) n = _
  unfold natToDigitsAux
  by_cases hn : n < 10
  · simp [hn]
  · have hd : n / 10 < n := Nat.div_lt_self (by omega) (by omega)
    simp only [hn, if_false]
    rw [natToDigitsAux_fuel n (n / 10 + 1) (n / 10) (by omega) (by omega)]
    rfl

/-- A decimal never prints as the empty string. -/
theorem natToDigits_ne_nil (n : Nat) : natToDigits n ≠ [] := by
  rw [natToDigits_eq]
  by_cases hn : n < 10 <;> simp [hn]

/-- Every printed character is one of the ten digit characters. -/
theorem natToDigits_mem (n : Nat) :
    ∀ c ∈ natToDigits n, ∃ d, d < 10 ∧ c = digitChar d := by
  induction n using Nat.strong_induction_on with
  | _ n ih =>
    rw [natToDigits_eq]
    by_cases hn : n < 10
    · simp only [hn, if_true]
      intro c hc
      simp only [List.mem_singleton] at hc
      exact ⟨n, hn, hc⟩
    · simp only [hn, if_false]
      intro c hc
      rcases List.mem_append.mp hc with h | h
      · exact ih (n / 10) (Nat.div_lt_self (by omega) (by omega)) c h
      · simp only [List.mem_singleton] at h
        exact ⟨n % 10, Nat.mod_lt n (by omega), h⟩

/-- Digit characters are not carriage returns and not whitespace. -/
theorem digitChar_facts : ∀ d < 10,
    digitChar d ≠ '\r' ∧ isSpaceChar (digitChar d) = false := by decide

/-- Reading a digit character back. -/
theorem digitVal_digitChar : ∀ d < 10, digitVal (digitChar d) = some d := by
  decide

/-- The digit-folding loop distributes over append. -/
theorem parseNatAux_append (a : Bytes) :
    ∀ (b : Bytes) (acc : Nat),
      parseNatAux (a ++ b) acc
        = match parseNatAux a acc with
          | none => none
          | some m => parseNatAux b m := by
  induction a with
  | nil => intro b acc; rfl
  | cons c t ih =>
    intro b acc
    simp only [List.cons_append, parseNatAux]
    cases digitVal c with
    | none => rfl
    | some d => exact ih b (acc * 10 + d)

/-- Folding the printed digits of `n` onto `acc` multiplies `acc` by a
positive power of ten and adds `n`. -/
theorem parseNatAux_natToDigits (n : Nat) :
    ∃ e, 0 < e ∧ ∀ acc, parseNatAux (natToDigits n) acc = some (acc * e + n) := by
  induction n using Nat.strong_induction_on with
  | _ n ih =>
    rw [natToDigits_eq]
    by_cases hn : n < 10
    · refine ⟨10, by omega, fun acc => ?_⟩
      simp only [hn, if_true, parseNatAux, digitVal_digitChar n hn]
    · obtain ⟨e, he, hp⟩ := ih (n / 10) (Nat.div_lt_self (by omega) (by omega))
      refine ⟨e * 10, by omega, fun acc => ?_⟩
      simp only [hn, if_false]
      rw [parseNatAux_append, hp acc]
      have hm : n % 10 < 10 := Nat.mod_lt n (by omega)
      simp only [parseNatAux, digitVal_digitChar (n % 10) hm]
      congr 1
      calc (acc * e + n / 10) * 10 + n % 10
          = acc * (e * 10) + (n / 10 * 10 + n % 10) := by ring
        _ = acc * (e * 10) + n := by omega

/-- `Atoi (Itoa n) = n`. -/
theorem goAtoi_natToDigits (n : Nat) : goAtoi (natToDigits n) = some n := by
  unfold goAtoi
  rw [if_neg (by simp [natToDigits_ne_nil n])]
  obtain ⟨e, _, hp⟩ := parseNatAux_natToDigits n
  rw [hp 0]
  simp

/-- A non-CR character cannot start the header terminator. -/
theorem isMarkerPrefix_cons_false (c : Char) (l : Bytes) (h : c ≠ '\r') :
    isMarkerPrefix (c :: l) = false := by
  simp only [isMarkerPrefix, endMarker, List.isPrefixOf]
  simp [beq_eq_false_iff_ne, Ne.symm h]

/-- The marker search walks over a CR-free prefix untouched. -/
theorem splitFirstMarker_append (h : Bytes) :
    ∀ t : Bytes, (∀ c ∈ h, c ≠ '\r') →
      splitFirstMarker (h ++ t)
        = (splitFirstMarker t).map (fun p => (h ++ p.1, p.2)) := by
  induction h with
  | nil =>
    intro t _
    cases hsm : splitFirstMarker t with
    | none => simp [hsm]
    | some p => simp [hsm]
  | cons c h' ih =>
    intro t hcr
    have hc : c ≠ '\r' := hcr c (by simp)
    show splitFirstMarker (c :: (h' ++ t)) = _
    rw [splitFirstMarker, isMarkerPrefix_cons_false c _ hc]
    simp only [Bool.false_eq_true, if_false]
    rw [ih t (fun x hx => hcr x (by simp [hx]))]
    cases hsm : splitFirstMarker t with
    | none => simp [hsm]
    | some p => simp [hsm]

/-- The marker search steps over a lone CRLF followed by a non-CR byte. -/
theorem splitFirstMarker_crlf (c : Char) (t : Bytes) (hc : c ≠ '\r') :
    splitFirstMarker ('\r' :: '\n' :: c :: t)
      = (splitFirstMarker (c :: t)).map
          (fun p => ('\r' :: '\n' :: p.1, p.2)) := by
  have h1 : isMarkerPrefix ('\r' :: '\n' :: c :: t) = false := by
    simp only [isMarkerPrefix, endMarker, List.isPrefixOf]
    simp [beq_eq_false_iff_ne, Ne.symm hc]
  have h2 : isMarkerPrefix ('\n' :: c :: t) = false :=
    isMarkerPrefix_cons_false '\n' _ (by decide)
  rw [splitFirstMarker, h1]
  simp only [Bool.false_eq_true, if_false]
  rw [splitFirstMarker, h2]
  simp only [Bool.false_eq_true, if_false]
  cases splitFirstMarker (c :: t) with
  | none => rfl
  | some p => simp

/-- The marker search finds the terminator at its own start. -/
theorem splitFirstMarker_marker (b : Bytes) :
    splitFirstMarker (endMarker ++ b) = some ([], b) := by
  show splitFirstMarker ('\r' :: '\n' :: '\r' :: '\n' :: b) = some ([], b)
  rw [splitFirstMarker]
  have h1 : isMarkerPrefix ('\r' :: '\n' :: '\r' :: '\n' :: b) = true := by
    simp [isMarkerPrefix, endMarker, List.isPrefixOf]
  rw [h1]
  simp

/-- Prepend a block to the first line of a line list. -/
def consHead (h : Bytes) : List Bytes → List Bytes
  | [] => [h]
  | x :: xs => (h ++ x) :: xs

/-- `bytes.Split(s, "\r\n")` always yields at least one line. -/
theorem splitCRLF_ne_nil : (l : Bytes) → splitCRLF l ≠ []
  | [] => by simp [splitCRLF]
  | [a] => by simp [splitCRLF]
  | a :: b :: rest => by
    have ih := splitCRLF_ne_nil (b :: rest)
    rw [splitCRLF]
    by_cases ha : a = '\r'
    · by_cases hb : b = '\n'
      · simp [ha, hb]
      · simp only [ha, if_true, hb, if_false]
        cases hs : splitCRLF (b :: rest) with
        | nil => exact absurd hs ih
        | cons x xs => simp
    · simp only [ha, if_false]
      cases hs : splitCRLF (b :: rest) with
      | nil => exact absurd hs ih
      | cons x xs => simp

/-- The line splitter recognizes a CRLF at the front. -/
theorem splitCRLF_crlf (t : Bytes) :
    splitCRLF ('\r' :: '\n' :: t) = [] :: splitCRLF t := by
  rw [splitCRLF]
  simp

/-- The line splitter walks over one leading non-CR byte. -/
theorem splitCRLF_cons (c : Char) (X : Bytes) (hc : c ≠ '\r') :
    splitCRLF (c :: X) = consHead [c] (splitCRLF X) := by
  cases X with
  | nil => simp [splitCRLF, consHead]
  | cons b rest =>
    rw [splitCRLF, if_neg hc]
    cases hs : splitCRLF (b :: rest) with
    | nil => exact absurd hs (splitCRLF_ne_nil _)
    | cons x xs => simp [consHead]

/-- `consHead` composes. -/
theorem consHead_consHead (c : Char) (h : Bytes) (S : List Bytes) :
    consHead [c] (consHead h S) = consHead (c :: h) S := by
  cases S <;> simp [consHead]

/-- The line splitter walks over a CR-free block untouched. -/
theorem splitCRLF_append (h : Bytes) : ∀ t : Bytes,
    (∀ c ∈ h, c ≠ '\r') →
    splitCRLF (h ++ t) = consHead h (splitCRLF t) := by
  induction h with
  | nil =>
    intro t _
    cases hs : splitCRLF t with
    | nil => exact absurd hs (splitCRLF_ne_nil t)
    | cons x xs => simp [consHead, hs]
  | cons c h' ih =>
    intro t hcr
    have hc : c ≠ '\r' := hcr c (by simp)
    show splitCRLF (c :: (h' ++ t)) = _
    rw [splitCRLF_cons c _ hc]
    rw [ih t (fun x hx => hcr x (by simp [hx]))]
    exact consHead_consHead c h' (splitCRLF t)

/-- A CR-free block is a single line. -/
theorem splitCRLF_single (l : Bytes) (h : ∀ c ∈ l, c ≠ '\r') :
    splitCRLF l = [l] := by
  have := splitCRLF_append l [] h
  rw [List.append_nil] at this
  rw [this]
  simp [splitCRLF, consHead]

/-- `bytes.SplitN(line, ":", 2)` around the first colon. -/
theorem splitChar2_colon : (k : Bytes) → ∀ v : Bytes,
    (∀ c ∈ k, c ≠ ':') →
    splitChar2 ':' (k ++ ':' :: v) = (k, some v)
  | [] => by intro v _; simp [splitChar2]
  | c :: k' => by
    intro v h
    have hc : c ≠ ':' := h c (by simp)
    show splitChar2 ':' (c :: (k' ++ ':' :: v)) = _
    rw [splitChar2, if_neg hc]
    rw [splitChar2_colon k' v (fun x hx => h x (by simp [hx]))]

/-- `dropWhile` is the identity when the head already fails the test. -/
theorem dropWhile_of_forall_false {f : Char → Bool} (l : Bytes)
    (h : ∀ c ∈ l, f c = false) : l.dropWhile f = l := by
  cases l with
  | nil => rfl
  | cons c t => simp [List.dropWhile_cons, h c (by simp)]

/-- `bytes.TrimSpace` is the identity on whitespace-free bytes. -/
theorem trimSpace_of_no_space (l : Bytes)
    (h : ∀ c ∈ l, isSpaceChar c = false) : trimSpace l = l := by
  unfold trimSpace
  rw [dropWhile_of_forall_false l h]
  rw [dropWhile_of_forall_false l.reverse (fun c hc => h c (List.mem_reverse.mp hc))]
  exact List.reverse_reverse l

/-- `bytes.TrimSpace` absorbs one leading space. -/
theorem trimSpace_cons_space (v : Bytes) :
    trimSpace (' ' :: v) = trimSpace v := by
  unfold trimSpace
  rw [List.dropWhile_cons]
  simp [isSpaceChar]

/-- The marker search steps over a lone CRLF followed by a non-empty
CR-free block. -/
theorem splitFirstMarker_crlf_append (u w : Bytes) (hu : u ≠ [])
    (hcr : ∀ c ∈ u, c ≠ '\r') :
    splitFirstMarker ('\r' :: '\n' :: (u ++ w))
      = (splitFirstMarker (u ++ w)).map
          (fun p => ('\r' :: '\n' :: p.1, p.2)) := by
  cases u with
  | nil => exact absurd rfl hu
  | cons c t =>
    rw [List.cons_append]
    exact splitFirstMarker_crlf c (t ++ w) (hcr c (by simp))

/-- Parsing one header line shaped `name ++ ":" ++ value`. -/
theorem parseHeaderLine_colon (m : Smap) (k v : Bytes)
    (hk : ∀ c ∈ k, c ≠ ':') :
    parseHeaderLine m (k ++ ':' :: v) = aSet (trimSpace k) (trimSpace v) m := by
  unfold parseHeaderLine
  rw [splitChar2_colon k v hk]

/-- C6.  `CreateResponseBytes(code, contentType, text, b)` emits exactly,
in order: the status line, a `Content-Type` header, a
`Connection: keep-alive` header, a `Content-Length` header carrying the
decimal byte length of `b`, a blank line, and then `b` verbatim (first
conjunct).  Parsing the emitted bytes the way the engine itself parses
requests — split at the first `"\r\n\r\n"`, split the header section on
`"\r\n"`, fold the lines after the first into the header map — recovers
the body byte-identical to `b` and a `Content-Length` value that `Atoi`
reads back as exactly `b.length`; the `Connection` header parses to
`keep-alive`.  (The caller-supplied fields must be free of `'\r'`, as
every real status code, content type and status text is — otherwise they
would themselves inject header-block structure.) -/
theorem createResponse_roundtrip
    (statusCode contentType statusMessage body : Bytes)
    (hcode : ∀ c ∈ statusCode, c ≠ '\r')
    (hct : ∀ c ∈ contentType, c ≠ '\r')
    (hmsg : ∀ c ∈ statusMessage, c ≠ '\r') :
    (CreateResponseBytes statusCode contentType statusMessage body).1
        = "HTTP/1.1 ".data ++ statusCode ++ [' '] ++ statusMessage
          ++ "\r\nContent-Type: ".data ++ contentType
          ++ "\r\nConnection: keep-alive".data
          ++ "\r\nContent-Length: ".data ++ natToDigits body.length
          ++ endMarker ++ body ∧
    (splitMarker2
        (CreateResponseBytes statusCode contentType statusMessage body).1).2
      = some body ∧
    aGet (parseHeadersFromBytes (splitCRLF (splitMarker2
          (CreateResponseBytes statusCode contentType statusMessage body).1).1).tail)
        "Content-Length".data
      = some (natToDigits body.length) ∧
    aGet (parseHeadersFromBytes (splitCRLF (splitMarker2
          (CreateResponseBytes statusCode contentType statusMessage body).1).1).tail)
        "Connection".data
      = some "keep-alive".data ∧
    goAtoi (natToDigits body.length) = some body.length := by
  -- blocks of the header section
  have hA : ∀ c ∈ ("HTTP/1.1 ".data ++ statusCode ++ [' '] ++ statusMessage),
      c ≠ '\r' := by
    have l1 : ∀ c ∈ "HTTP/1.1 ".data, c ≠ '\r' := by decide
    intro c hc
    simp only [List.mem_append] at hc
    rcases hc with ((h | h) | h) | h
    · exact l1 c h
    · exact hcode c h
    · simp only [List.mem_singleton] at h; subst h; decide
    · exact hmsg c h
  have hB : ∀ c ∈ ("Content-Type: ".data ++ contentType), c ≠ '\r' := by
    have l1 : ∀ c ∈ "Content-Type: ".data, c ≠ '\r' := by decide
    intro c hc
    rcases List.mem_append.mp hc with h | h
    · exact l1 c h
    · exact hct c h
  have hCc : ∀ c ∈ ("Connection: keep-alive".data : Bytes), c ≠ '\r' := by
    decide
  have hdig : ∀ c ∈ natToDigits body.length, c ≠ '\r' ∧ isSpaceChar c = false := by
    intro c hc
    obtain ⟨d, hd, rfl⟩ := natToDigits_mem body.length c hc
    exact digitChar_facts d hd
  have hD : ∀ c ∈ ("Content-Length: ".data ++ natToDigits body.length),
      c ≠ '\r' := by
    have l1 : ∀ c ∈ "Content-Length: ".data, c ≠ '\r' := by decide
    intro c hc
    rcases List.mem_append.mp hc with h | h
    · exact l1 c h
    · exact (hdig c h).1
  have hBne : ("Content-Type: ".data ++ contentType : Bytes) ≠ [] := by
    intro h
    have h2 := congrArg List.length h
    rw [List.length_append] at h2
    simp at h2
  have hCne : ("Connection: keep-alive".data : Bytes) ≠ [] := by decide
  have hDne : ("Content-Length: ".data ++ natToDigits body.length : Bytes)
      ≠ [] := by
    intro h
    have h2 := congrArg List.length h
    rw [List.length_append] at h2
    simp at h2
  -- regroup the emitted bytes around the CRLF joints
  have hre : (CreateResponseBytes statusCode contentType statusMessage body).1
      = ("HTTP/1.1 ".data ++ statusCode ++ [' '] ++ statusMessage)
        ++ ('\r' :: '\n' :: (("Content-Type: ".data ++ contentType)
        ++ ('\r' :: '\n' :: ("Connection: keep-alive".data
        ++ ('\r' :: '\n' :: (("Content-Length: ".data ++ natToDigits body.length)
        ++ (endMarker ++ body))))))) := by
    simp only [CreateResponseBytes,
      show "\r\nContent-Type: ".data
        = '\r' :: '\n' :: "Content-Type: ".data from rfl,
      show "\r\nConnection: keep-alive".data
        = '\r' :: '\n' :: "Connection: keep-alive".data from rfl,
      show "\r\nContent-Length: ".data
        = '\r' :: '\n' :: "Content-Length: ".data from rfl,
      List.append_assoc, List.cons_append, List.singleton_append]
  -- the marker split lands exactly at the blank line
  have hsfm : splitFirstMarker
      (CreateResponseBytes statusCode contentType statusMessage body).1
      = some (("HTTP/1.1 ".data ++ statusCode ++ [' '] ++ statusMessage)
        ++ ('\r' :: '\n' :: (("Content-Type: ".data ++ contentType)
        ++ ('\r' :: '\n' :: ("Connection: keep-alive".data
        ++ ('\r' :: '\n' :: ("Content-Length: ".data ++ natToDigits body.length)))))),
        body) := by
    rw [hre]
    rw [splitFirstMarker_append _ _ hA]
    rw [splitFirstMarker_crlf_append _ _ hBne hB]
    rw [splitFirstMarker_append _ _ hB]
    rw [splitFirstMarker_crlf_append _ _ hCne hCc]
    rw [splitFirstMarker_append _ _ hCc]
    rw [splitFirstMarker_crlf_append _ _ hDne hD]
    rw [splitFirstMarker_append _ _ hD]
    rw [splitFirstMarker_marker]
    simp [List.append_assoc]
  have hsm2 : splitMarker2
      (CreateResponseBytes statusCode contentType statusMessage body).1
      = (("HTTP/1.1 ".data ++ statusCode ++ [' '] ++ statusMessage)
        ++ ('\r' :: '\n' :: (("Content-Type: ".data ++ contentType)
        ++ ('\r' :: '\n' :: ("Connection: keep-alive".data
        ++ ('\r' :: '\n' :: ("Content-Length: ".data ++ natToDigits body.length)))))),
        some body) := by
    unfold splitMarker2
    rw [hsfm]
  -- splitting the header section into its four lines
  have hlines : splitCRLF
      (("HTTP/1.1 ".data ++ statusCode ++ [' '] ++ statusMessage)
        ++ ('\r' :: '\n' :: (("Content-Type: ".data ++ contentType)
        ++ ('\r' :: '\n' :: ("Connection: keep-alive".data
        ++ ('\r' :: '\n' :: ("Content-Length: ".data ++ natToDigits body.length)))))))
      = [("HTTP/1.1 ".data ++ statusCode ++ [' '] ++ statusMessage),
         ("Content-Type: ".data ++ contentType),
         "Connection: keep-alive".data,
         ("Content-Length: ".data ++ natToDigits body.length)] := by
    rw [splitCRLF_append _ _ hA, splitCRLF_crlf]
    rw [splitCRLF_append _ _ hB, splitCRLF_crlf]
    rw [splitCRLF_append _ _ hCc, splitCRLF_crlf]
    rw [splitCRLF_single _ hD]
    simp [consHead]
  -- folding the three header lines into the header map
  have hparse : parseHeadersFromBytes
      [("Content-Type: ".data ++ contentType),
       "Connection: keep-alive".data,
       ("Content-Length: ".data ++ natToDigits body.length)]
      = aSet "Content-Length".data (natToDigits body.length)
          (aSet "Connection".data "keep-alive".data
            (aSet "Content-Type".data (trimSpace contentType) [])) := by
    have stepCT : ∀ m : Smap,
        parseHeaderLine m ("Content-Type: ".data ++ contentType)
          = aSet "Content-Type".data (trimSpace contentType) m := by
      intro m
      have h := parseHeaderLine_colon m "Content-Type".data
        (' ' :: contentType) (by decide)
      rw [trimSpace_cons_space] at h
      exact h
    have stepConn : ∀ m : Smap,
        parseHeaderLine m "Connection: keep-alive".data
          = aSet "Connection".data "keep-alive".data m := by
      intro m
      have h := parseHeaderLine_colon m "Connection".data
        (' ' :: "keep-alive".data) (by decide)
      rw [trimSpace_cons_space] at h
      exact h
    have stepCL : ∀ m : Smap,
        parseHeaderLine m ("Content-Length: ".data ++ natToDigits body.length)
          = aSet "Content-Length".data (natToDigits body.length) m := by
      intro m
      have h := parseHeaderLine_colon m "Content-Length".data
        (' ' :: natToDigits body.length) (by decide)
      rw [trimSpace_cons_space, trimSpace_of_no_space (natToDigits body.length)
        (fun c hc => (hdig c hc).2)] at h
      exact h
    unfold parseHeadersFromBytes
    simp only [List.foldl_cons, List.foldl_nil]
    rw [stepCT, stepConn, stepCL]
  refine ⟨rfl, ?_, ?_, ?_, goAtoi_natToDigits body.length⟩
  · rw [hsm2]
  · rw [hsm2]
    simp only [List.tail_cons]
    rw [hlines]
    simp only [List.tail_cons]
    rw [hparse]
    exact aGet_aSet_eq _ _ _
  · rw [hsm2]
    simp only [List.tail_cons]
    rw [hlines]
    simp only [List.tail_cons]
    rw [hparse]
    rw [aGet_aSet_ne _ _ _ _ (by decide)]
    exact aGet_aSet_eq _ _ _

/-- Witness for `createResponse_roundtrip` at the spec's example
`build(200, "text/plain", "OK", b)` with `b = "hi"`. -/
theorem createResponse_roundtrip_witness :
    (splitMarker2
        (CreateResponseBytes "200".data "text/plain".data "OK".data "hi".data).1).2
      = some "hi".data ∧
    aGet (parseHeadersFromBytes (splitCRLF (splitMarker2
          (CreateResponseBytes "200".data "text/plain".data "OK".data "hi".data).1).1).tail)
        "Content-Length".data
      = some (natToDigits "hi".data.length) ∧
    goAtoi (natToDigits "hi".data.length) = some "hi".data.length := by
  have h := createResponse_roundtrip "200".data "text/plain".data "OK".data
    "hi".data (by decide) (by decide) (by decide)
  exact ⟨h.2.1, h.2.2.1, h.2.2.2.2⟩

end RawHttp
